import Mathlib

/-!
# Verification of the postero Zotero synchronization engine

Shallow embedding of the sync core of the repository (a bidirectional
synchronization engine between the Zotero web API and a local mirror),
together with proofs about the claims of its specification.

The embedding follows the Rust sources:
* `src/zotero/sync.rs` — the `SyncDirection`, `LibraryType`, `SyncStatus` enums;
* `src/zotero/library.rs` — `can_upload` / `can_download`, the full-sync phases
  (`sync_collections`, `upload_items`, `download_items`, `sync_tags`,
  `sync_deleted`, `try_delete_item_local`, `try_delete_collection_local`,
  `create_tag_local`) and the top-level `sync`;
* `src/zotero/client.rs` — status-code semantics of `upload_item`,
  `upload_collection`, `delete_item`, `delete_collection`, the
  `Last-Modified-Version` header handling of the `get_*_version_cloud`
  reads, and `handle_rate_limiting`;
* `src/zotero/item.rs` / `collection.rs` — `update_cloud` and
  `download_attachment_cloud`;
* `src/zotero/sync_queue.rs` — `fetch_pending`.

HTTP transport, the relational store and the object store are external
collaborators; they are modelled as explicit inputs (response records,
tables as lists of rows, an abstract content-hash function).
-/

namespace Postero

/-- `SyncDirection` from `src/zotero/sync.rs`. -/
inductive SyncDirection where
  | none
  | toCloud
  | toLocal
  | bothCloud
  | bothLocal
  | bothManual
deriving DecidableEq, Repr

/-- `LibraryType` from `src/zotero/sync.rs`. -/
inductive LibraryType where
  | user
  | group
deriving DecidableEq, Repr

/-- `SyncStatus` from `src/zotero/sync.rs`. -/
inductive SyncStatus where
  | new
  | synced
  | modified
  | incomplete
deriving DecidableEq, Repr

/-- `Library::can_upload` from `src/zotero/library.rs`:
`matches!(self.sync_direction, ToCloud | BothCloud | BothLocal | BothManual)`. -/
def can_upload : SyncDirection → Bool
  | .toCloud => true
  | .bothCloud => true
  | .bothLocal => true
  | .bothManual => true
  | _ => false

/-- `Library::can_download` from `src/zotero/library.rs`:
`matches!(self.sync_direction, ToLocal | BothCloud | BothLocal | BothManual)`. -/
def can_download : SyncDirection → Bool
  | .toLocal => true
  | .bothCloud => true
  | .bothLocal => true
  | .bothManual => true
  | _ => false

/-- The error type of the crate (`src/error.rs`), restricted to the
variants produced by the embedded functions. -/
inductive ZErr where
  | api (code : Nat) (message : String)
  | validation (message : String)
deriving DecidableEq, Repr

/-- An HTTP response to a Zotero write, as far as the client inspects it:
the status code, the parsed `Last-Modified-Version` header (absent or
unparsable ⇒ `none`) and the body text. -/
structure WriteResponse where
  status : Nat
  lmvHeader : Option Int
  body : String
deriving DecidableEq, Repr

/-- The status-code dispatch of `ZoteroClient::upload_item`
(`src/zotero/client.rs`): 200/201 take the `Last-Modified-Version` header,
defaulting to `library_version + 1`; 304 keeps the caller's version;
412, 413, 429/503 and everything else are API errors. -/
def upload_item_result (library_version : Int) (r : WriteResponse) : Except ZErr Int :=
  if r.status = 200 ∨ r.status = 201 then
    .ok (r.lmvHeader.getD (library_version + 1))
  else if r.status = 304 then
    .ok library_version
  else if r.status = 412 then
    .error (.api 412 "Item has been modified remotely. Sync required.")
  else if r.status = 413 then
    .error (.api 413 "Item too large. File upload required for attachments.")
  else if r.status = 429 ∨ r.status = 503 then
    .error (.api r.status "Rate limited or service unavailable")
  else
    .error (.api r.status r.body)

/-- The status-code dispatch of `ZoteroClient::upload_collection`
(`src/zotero/client.rs`); identical to `upload_item` except that there is
no 413 branch. -/
def upload_collection_result (library_version : Int) (r : WriteResponse) : Except ZErr Int :=
  if r.status = 200 ∨ r.status = 201 then
    .ok (r.lmvHeader.getD (library_version + 1))
  else if r.status = 304 then
    .ok library_version
  else if r.status = 412 then
    .error (.api 412 "Collection has been modified remotely. Sync required.")
  else if r.status = 429 ∨ r.status = 503 then
    .error (.api r.status "Rate limited or service unavailable")
  else
    .error (.api r.status r.body)

/-- The status-code dispatch of `ZoteroClient::delete_item`
(`src/zotero/client.rs`): 204 succeeds with the header (default
`library_version + 1`), 412 is a conflict, everything else an API error. -/
def delete_item_result (library_version : Int) (r : WriteResponse) : Except ZErr Int :=
  if r.status = 204 then
    .ok (r.lmvHeader.getD (library_version + 1))
  else if r.status = 412 then
    .error (.api 412 "Item has been modified remotely. Sync required.")
  else
    .error (.api r.status r.body)

/-- The status-code dispatch of `ZoteroClient::delete_collection`
(`src/zotero/client.rs`). -/
def delete_collection_result (library_version : Int) (r : WriteResponse) : Except ZErr Int :=
  if r.status = 204 then
    .ok (r.lmvHeader.getD (library_version + 1))
  else if r.status = 412 then
    .error (.api 412 "Collection has been modified remotely. Sync required.")
  else
    .error (.api r.status r.body)

/-- The rate-limit headers of a response: `Retry-After` and `Backoff`,
each an optional number of seconds. -/
structure RateHeaders where
  retryAfter : Option Nat
  backoff : Option Nat
deriving DecidableEq, Repr

/-- Total seconds slept by `ZoteroClient::handle_rate_limiting`
(`src/zotero/client.rs`): `handle_backoff` sleeps the `Backoff` header
value if present, then `handle_retry` sleeps the `Retry-After` header
value if present; nothing else causes a sleep. -/
def handle_rate_limiting_sleep (h : RateHeaders) : Nat :=
  (match h.backoff with | some n => n | Option.none => 0) +
  (match h.retryAfter with | some n => n | Option.none => 0)

/-! ## Sync queue (`src/zotero/sync_queue.rs`) -/

/-- One row of the `sync_queue` table (`SyncQueueEntry` in
`src/zotero/sync_queue.rs`); timestamps are modelled as integers. -/
structure SyncQueueEntry where
  id : Int
  entity_type : String
  entity_key : String
  library_id : Int
  library_type : LibraryType
  operation : String
  priority : Int
  retry_count : Int
  max_retries : Int
  next_retry_at : Int
  last_error : Option String
  created_at : Int
  processed_at : Option Int
deriving DecidableEq, Repr

/-- The WHERE clause of `SyncQueue::fetch_pending`:
`library_id = $1 AND library_type = $2 AND processed_at IS NULL AND
retry_count < max_retries AND next_retry_at <= NOW()`. -/
def fetch_pending_eligible (library_id : Int) (library_type : LibraryType) (now : Int)
    (e : SyncQueueEntry) : Bool :=
  e.library_id == library_id && e.library_type == library_type
    && e.processed_at == Option.none
    && decide (e.retry_count < e.max_retries)
    && decide (e.next_retry_at ≤ now)

/-- The sort key of `fetch_pending`: `ORDER BY priority DESC, created_at ASC`. -/
def queue_order (a b : SyncQueueEntry) : Prop :=
  b.priority < a.priority ∨ (a.priority = b.priority ∧ a.created_at ≤ b.created_at)

instance : DecidableRel queue_order := fun a b => by
  unfold queue_order; infer_instance

/-- `SyncQueue::fetch_pending` (`src/zotero/sync_queue.rs`): the eligible rows
of the queue table, ordered by `priority DESC, created_at ASC`, truncated by
`LIMIT $3` to `batch_size` rows. There is no other bound on the batch size in
this function. -/
def fetch_pending (table : List SyncQueueEntry) (library_id : Int)
    (library_type : LibraryType) (now : Int) (batch_size : Int) : List SyncQueueEntry :=
  ((table.filter (fetch_pending_eligible library_id library_type now)).insertionSort
    queue_order).take batch_size.toNat

/-! ## Attachment download (`src/zotero/item.rs`) -/

/-- The fields of an item consulted by `Item::download_attachment_cloud`:
`link_mode` and `filename` carry the `unwrap_or` defaults already applied by
the source (`""` and `"unknown"`), `cloud_md5` is `data.extra_fields["md5"]`. -/
structure AttachmentInput where
  key : String
  link_mode : String
  filename : String
  cloud_md5 : Option String
deriving DecidableEq, Repr

/-- Outcomes of the external calls made by `download_attachment_cloud`:
the object-store read of the possibly pre-existing blob, the redirect-URL
request and the blob download. -/
structure AttachmentEnv where
  existing : Option (List Nat)
  url_result : Except ZErr String
  downloaded : Except ZErr (List Nat)

/-- `Item::download_attachment_cloud` (`src/zotero/item.rs`), with the MD5
computation abstracted as `hash` (the source calls the external `md5` crate).
The return value is the `file_put` performed on the object store —
`(folder, filename, bytes)` — or `none` when nothing is written. -/
def download_attachment_cloud (hash : List Nat → String) (env : AttachmentEnv)
    (item : AttachmentInput) : Except ZErr (Option (String × String × List Nat)) :=
  if item.link_mode ≠ "linked_file" ∧ item.link_mode ≠ "imported_file" then
    .ok Option.none
  else
    let folder := "attachments/" ++ item.key
    let alreadyPresent :=
      match item.cloud_md5, env.existing with
      | some m, some data => hash data == m
      | _, _ => false
    if alreadyPresent then .ok Option.none
    else
      match env.url_result with
      | .error (.api 404 _) => .ok Option.none
      | .error e => .error e
      | .ok _ =>
        match env.downloaded with
        | .error e => .error e
        | .ok data =>
          match item.cloud_md5 with
          | some m =>
            if hash data ≠ m then
              .error (.validation ("MD5 mismatch for " ++ item.key ++ ": expected "
                ++ m ++ ", got " ++ hash data))
            else .ok (some (folder, item.filename, data))
          | Option.none => .ok (some (folder, item.filename, data))

/-! ## Tags (`src/zotero/library.rs`, `src/zotero/tag.rs`) -/

/-- A tag as served by the remote. The source parses only `data.tag` and
`data.type` (`Tag { data: TagData }`); the remote `meta.numItems` count is
never deserialized, and is carried here only so that independence from it can
be stated. -/
structure RemoteTag where
  tag : String
  tag_type : Option Int
  reported_num_items : Option Int
deriving DecidableEq, Repr

/-- `TagMeta` from `src/zotero/types.rs`. -/
structure TagMeta where
  tag_type : Int
  num_items : Int
deriving DecidableEq, Repr

/-- One row of the per-library `tags` table. -/
structure TagRow where
  tag : String
  meta : TagMeta
deriving DecidableEq, Repr

/-- The metadata written by `Library::create_tag_local`
(`src/zotero/library.rs`): `TagMeta { tag_type: tag.data.tag_type.unwrap_or(0),
num_items: 0 }` — the item count is the constant 0. -/
def create_tag_local_meta (t : RemoteTag) : TagMeta :=
  { tag_type := t.tag_type.getD 0, num_items := 0 }

/-- The upsert `INSERT ... ON CONFLICT (tag, library_id, library_type) DO
UPDATE SET meta = EXCLUDED.meta` on the per-library tag table. -/
def tag_upsert (tbl : List TagRow) (t : String) (m : TagMeta) : List TagRow :=
  if tbl.any (fun r => r.tag == t) then
    tbl.map (fun r => if r.tag = t then { tag := t, meta := m } else r)
  else tbl ++ [{ tag := t, meta := m }]

/-- `Library::create_tag_local` applied to the tag table. -/
def create_tag_local (tbl : List TagRow) (t : RemoteTag) : List TagRow :=
  tag_upsert tbl t.tag (create_tag_local_meta t)

/-- `Library::delete_tag_local`: `DELETE FROM tags WHERE tag = $1`. -/
def delete_tag_local (tbl : List TagRow) (t : String) : List TagRow :=
  tbl.filter (fun r => r.tag != t)

/-- `Library::sync_tags` (`src/zotero/library.rs`): no-op unless the library
can download; otherwise each remote tag is upserted via `create_tag_local`
and the new `tag_version` is the `Last-Modified-Version` header of the
`tags?since=` response, defaulting to the current `tag_version`
(`get_tags_cloud`: `unwrap_or(since_version)`). -/
def sync_tags_model (dir : SyncDirection) (tag_version : Int)
    (hdr : Except ZErr (Option Int)) (remote : List RemoteTag) (tbl : List TagRow) :
    Except ZErr (Int × List TagRow) :=
  if ¬ can_download dir then .ok (tag_version, tbl)
  else
    match hdr with
    | .error e => .error e
    | .ok h => .ok (h.getD tag_version, remote.foldl create_tag_local tbl)

/-! ## Item and collection rows, uploads (`src/zotero/library.rs`,
`src/zotero/item.rs`, `src/zotero/collection.rs`) -/

/-- The columns of an `items` row consulted by the sync engine. -/
structure ItemRow where
  key : String
  version : Int
  sync : SyncStatus
  trashed : Bool
  deleted : Bool
deriving DecidableEq, Repr

/-- The columns of a `collections` row consulted by the sync engine. -/
structure CollectionRow where
  key : String
  version : Int
  sync : SyncStatus
  deleted : Bool
deriving DecidableEq, Repr

/-- `Item::update_cloud` (`src/zotero/item.rs`) for one item, given the HTTP
response `r` to the single write it issues. Returns the resulting local row
(`none` means the row is removed from the database) and the new
`last_modified_version`: a `deleted` row is deleted remotely and removed
locally; a `new`/`modified` row is uploaded, marked `synced` and stamped with
the returned version; a `synced` or `incomplete` row is left untouched (the
source only logs for these). -/
def item_update_cloud (r : WriteResponse) (row : ItemRow) (lmv : Int) :
    Except ZErr (Option ItemRow × Int) :=
  if row.deleted then
    match delete_item_result lmv r with
    | .ok v => .ok (Option.none, v)
    | .error e => .error e
  else
    match row.sync with
    | .new | .modified =>
      match upload_item_result lmv r with
      | .ok v => .ok (some { row with sync := SyncStatus.synced, version := v }, v)
      | .error e => .error e
    | _ => .ok (some row, lmv)

/-- `Collection::update_cloud` (`src/zotero/collection.rs`), analogous to
`item_update_cloud`; the returned integer is the new `library_version`
(unchanged for `synced`/`incomplete` rows). -/
def collection_update_cloud (r : WriteResponse) (row : CollectionRow)
    (library_version : Int) : Except ZErr (Option CollectionRow × Int) :=
  if row.deleted then
    match delete_collection_result library_version r with
    | .ok v => .ok (Option.none, v)
    | .error e => .error e
  else
    match row.sync with
    | .new | .modified =>
      match upload_collection_result library_version r with
      | .ok v => .ok (some { row with sync := SyncStatus.synced, version := v }, v)
      | .error e => .error e
    | _ => .ok (some row, library_version)

/-- Database effect of one uploaded item: `none` removes the row
(`DELETE ... WHERE key = $1`), `some r'` overwrites it
(`UPDATE ... WHERE key = $2`). -/
def apply_row_item (tbl : List ItemRow) (key : String) : Option ItemRow → List ItemRow
  | Option.none => tbl.filter (fun r => r.key != key)
  | some r' => tbl.map (fun r => if r.key = key then r' else r)

/-- Database effect of one uploaded collection. -/
def apply_row_collection (tbl : List CollectionRow) (key : String) :
    Option CollectionRow → List CollectionRow
  | Option.none => tbl.filter (fun r => r.key != key)
  | some r' => tbl.map (fun r => if r.key = key then r' else r)

/-- Lexicographic order on character codes, modelling the text order used by
the SQL `ORDER BY key`. -/
def charListLe : List Char → List Char → Bool
  | [], _ => true
  | _ :: _, [] => false
  | a :: as, b :: bs =>
    if a.val < b.val then true
    else if b.val < a.val then false
    else charListLe as bs

/-- Text order on keys. -/
def keyLe (a b : String) : Bool := charListLe a.data b.data

/-- The row selection of `Library::upload_items`:
`WHERE ... (sync = 'new' OR sync = 'modified') ORDER BY key`. -/
def upload_items_select (items : List ItemRow) : List ItemRow :=
  (items.filter
      (fun r => r.sync == SyncStatus.new || r.sync == SyncStatus.modified)).insertionSort
    (fun a b => keyLe a.key b.key)

/-- The row selection of `Library::sync_modified_collections`:
`WHERE ... (sync = 'new' OR sync = 'modified')` (no ORDER BY in the source). -/
def sync_modified_collections_select (cols : List CollectionRow) : List CollectionRow :=
  cols.filter (fun r => r.sync == SyncStatus.new || r.sync == SyncStatus.modified)

/-- One iteration of the `upload_items` loop: on error the item is logged
and skipped (`tracing::error!` + `continue`); on success the counter
advances, `last_modified_version` is replaced and the table is updated.
The accumulator is `(counter, last_modified_version, items table)`. -/
def upload_items_step (resp : String → WriteResponse)
    (acc : Int × Int × List ItemRow) (row : ItemRow) : Int × Int × List ItemRow :=
  match item_update_cloud (resp row.key) row acc.2.1 with
  | .error _ => acc
  | .ok (r', v) => (acc.1 + 1, v, apply_row_item acc.2.2 row.key r')

/-- `Library::upload_items` (`src/zotero/library.rs`): when the library
cannot upload, return `(0, item_version)` untouched; otherwise obtain the
baseline `Last-Modified-Version` from `items?since=0` (header default 0),
then run the loop over the selected rows. `baseline` is the outcome of that
probe; `resp` gives the response to each item's write. -/
def upload_items_model (dir : SyncDirection) (item_version : Int)
    (baseline : Except ZErr (Option Int)) (resp : String → WriteResponse)
    (items : List ItemRow) : Except ZErr (Int × Int × List ItemRow) :=
  if ¬ can_upload dir then .ok (0, item_version, items)
  else
    match baseline with
    | .error e => .error e
    | .ok h =>
      .ok ((upload_items_select items).foldl (upload_items_step resp) (0, h.getD 0, items))

/-- One iteration of the `sync_modified_collections` loop; errors are logged
and skipped, successes advance `library_version` and the counter. -/
def sync_modified_collections_step (resp : String → WriteResponse)
    (acc : Int × Int × List CollectionRow) (row : CollectionRow) :
    Int × Int × List CollectionRow :=
  match collection_update_cloud (resp row.key) row acc.2.1 with
  | .error _ => acc
  | .ok (r', v) => (acc.1 + 1, v, apply_row_collection acc.2.2 row.key r')

/-- `Library::sync_modified_collections` (`src/zotero/library.rs`): the loop
over the selected collections, starting from the library's
`collection_version`. The source returns only the counter; the running
version and the table are kept here to state its behavior. -/
def sync_modified_collections_model (collection_version : Int)
    (resp : String → WriteResponse) (cols : List CollectionRow) :
    Int × Int × List CollectionRow :=
  (sync_modified_collections_select cols).foldl (sync_modified_collections_step resp)
    (0, collection_version, cols)

/-! ## Download phases and deletions (`src/zotero/library.rs`) -/

/-- `Library::sync_collections`: upload the modified collections when
allowed, then, when the library can download, probe
`collections?since=collection_version` and advance the candidate
`last_modified_version` only when the reported cloud version is strictly
larger (header default: the `since` value, per `get_collections_version_cloud`).
Returns `(counter, last_modified_version, collections table)`. The per-key
download upserts are omitted: they never touch the library's version columns
(see `update_collection_local`), and the counter they add is not consulted by
any caller. -/
def sync_collections_model (dir : SyncDirection) (collection_version : Int)
    (sinceHdr : Int → Except ZErr (Option Int)) (resp : String → WriteResponse)
    (cols : List CollectionRow) : Except ZErr (Int × Int × List CollectionRow) :=
  let up :=
    if can_upload dir then sync_modified_collections_model collection_version resp cols
    else (0, collection_version, cols)
  if can_download dir then
    match sinceHdr collection_version with
    | .error e => .error e
    | .ok h =>
      let cloudV := h.getD collection_version
      .ok (up.1, if collection_version < cloudV then cloudV else collection_version, up.2.2)
  else
    .ok (up.1, collection_version, up.2.2)

/-- `Library::download_items`: when the library cannot download, keep
`item_version`; otherwise probe `items?since=item_version` for trashed and
non-trashed items (in that order, both with `since = item_version`) and take
each reported cloud version only when strictly larger (header default: the
`since` value). Only the version bookkeeping is modelled: the per-key
upserts and attachment downloads never touch the library's version columns. -/
def download_items_model (dir : SyncDirection) (item_version : Int)
    (sinceHdr : Int → Bool → Except ZErr (Option Int)) : Except ZErr Int :=
  if ¬ can_download dir then .ok item_version
  else
    match sinceHdr item_version true with
    | .error e => .error e
    | .ok h1 =>
      let c1 := h1.getD item_version
      let l1 := if item_version < c1 then c1 else item_version
      match sinceHdr item_version false with
      | .error e => .error e
      | .ok h2 =>
        let c2 := h2.getD item_version
        .ok (if l1 < c2 then c2 else l1)

/-- `Library::try_delete_item_local` (`src/zotero/library.rs`): look up the
row for `key` (absent or already `deleted` ⇒ no-op); a `synced` row — or any
row when the library can download — is marked `deleted = true`; otherwise the
row is kept and stamped with the remote version and `sync = synced`. -/
def try_delete_item_local (dir : SyncDirection) (tbl : List ItemRow) (key : String)
    (last_modified_version : Int) : List ItemRow :=
  match tbl.find? (fun r => r.key == key) with
  | Option.none => tbl
  | some row =>
    if row.deleted then tbl
    else if row.sync = SyncStatus.synced then
      tbl.map (fun r => if r.key = key then { r with deleted := true } else r)
    else if can_download dir then
      tbl.map (fun r => if r.key = key then { r with deleted := true } else r)
    else
      tbl.map (fun r =>
        if r.key = key then
          { r with version := last_modified_version, sync := SyncStatus.synced }
        else r)

/-- `Library::try_delete_collection_local` (`src/zotero/library.rs`),
identical in structure to `try_delete_item_local`. -/
def try_delete_collection_local (dir : SyncDirection) (tbl : List CollectionRow)
    (key : String) (last_modified_version : Int) : List CollectionRow :=
  match tbl.find? (fun r => r.key == key) with
  | Option.none => tbl
  | some row =>
    if row.deleted then tbl
    else if row.sync = SyncStatus.synced then
      tbl.map (fun r => if r.key = key then { r with deleted := true } else r)
    else if can_download dir then
      tbl.map (fun r => if r.key = key then { r with deleted := true } else r)
    else
      tbl.map (fun r =>
        if r.key = key then
          { r with version := last_modified_version, sync := SyncStatus.synced }
        else r)

/-- The remote deletions feed (`Deletions` in `src/zotero/mod.rs`). -/
structure DeletionsFeed where
  collections : List String
  searches : List String
  items : List String
  tags : List String
  settings : List String
deriving DecidableEq, Repr

/-- `Library::sync_deleted` (`src/zotero/library.rs`): no-op unless the
library can download; otherwise probe `deleted?since=version` (the
library-wide `version`; header default: that `since` value) and apply
`try_delete_item_local` to every listed item key, then
`try_delete_collection_local` to every listed collection key, then
`delete_tag_local` to every listed tag name. -/
def sync_deleted_model (dir : SyncDirection) (library_version : Int)
    (hdr : Except ZErr (Option Int)) (feed : DeletionsFeed) (items : List ItemRow)
    (cols : List CollectionRow) (tags : List TagRow) :
    Except ZErr (List ItemRow × List CollectionRow × List TagRow) :=
  if ¬ can_download dir then .ok (items, cols, tags)
  else
    match hdr with
    | .error e => .error e
    | .ok h =>
      let lmv := h.getD library_version
      .ok (feed.items.foldl (fun t k => try_delete_item_local dir t k lmv) items,
           feed.collections.foldl (fun t k => try_delete_collection_local dir t k lmv) cols,
           feed.tags.foldl delete_tag_local tags)

/-! ## The full sync (`Library::sync`, `src/zotero/library.rs`) -/

/-- The library columns consulted and updated by `Library::sync`. -/
structure SyncLibrary where
  id : Int
  library_type : LibraryType
  version : Int
  item_version : Int
  collection_version : Int
  tag_version : Int
  sync_direction : SyncDirection
  sync_tags : Bool
deriving DecidableEq, Repr

/-- The local state acted on by a full sync: the library row and its
per-library entity tables. -/
structure SyncState where
  lib : SyncLibrary
  items : List ItemRow
  collections : List CollectionRow
  tags : List TagRow
deriving DecidableEq, Repr

/-- The remote side of one full sync: the `Last-Modified-Version` headers of
the `?since=` probes (as functions of the `since` value), the response to
each entity's write (by key), the tags returned by `tags?since=`, and the
deletions feed. The `format=versions` key maps of the probes are taken to be
empty: the per-key download upserts they drive never touch the library's
version watermarks. -/
structure CloudEnv where
  collectionsSinceHdr : Int → Except ZErr (Option Int)
  itemsSinceHdr : Int → Bool → Except ZErr (Option Int)
  tagsSinceHdr : Int → Except ZErr (Option Int)
  deletionsSinceHdr : Int → Except ZErr (Option Int)
  itemWrite : String → WriteResponse
  collectionWrite : String → WriteResponse
  remoteTags : List RemoteTag
  deletions : DeletionsFeed

/-- `Library::sync` (`src/zotero/library.rs`): return `Ok` immediately when
`sync_direction = None`; otherwise run the phases in order — collections,
item upload (its returned version is discarded by the source), item
download, tags (only when the library's `sync_tags` flag is set; its version
is committed inside the branch), deletions — propagating phase errors, and
finally commit `item_version` and `collection_version` from the download
phases (`update_local`). -/
def sync_model (st : SyncState) (env : CloudEnv) : Except ZErr SyncState :=
  if st.lib.sync_direction = SyncDirection.none then .ok st
  else
    match sync_collections_model st.lib.sync_direction st.lib.collection_version
        env.collectionsSinceHdr env.collectionWrite st.collections with
    | .error e => .error e
    | .ok (_, collection_version, cols1) =>
      match upload_items_model st.lib.sync_direction st.lib.item_version
          (env.itemsSinceHdr 0 false) env.itemWrite st.items with
      | .error e => .error e
      | .ok (_, _, items1) =>
        match download_items_model st.lib.sync_direction st.lib.item_version
            env.itemsSinceHdr with
        | .error e => .error e
        | .ok item_version =>
          match (if st.lib.sync_tags then
                  sync_tags_model st.lib.sync_direction st.lib.tag_version
                    (env.tagsSinceHdr st.lib.tag_version) env.remoteTags st.tags
                 else .ok (st.lib.tag_version, st.tags)) with
          | .error e => .error e
          | .ok (tag_version, tags1) =>
            match sync_deleted_model st.lib.sync_direction st.lib.version
                (env.deletionsSinceHdr st.lib.version) env.deletions items1 cols1 tags1 with
            | .error e => .error e
            | .ok (items2, cols2, tags2) =>
              .ok { lib := { st.lib with
                              item_version := item_version,
                              collection_version := collection_version,
                              tag_version := tag_version },
                    items := items2, collections := cols2, tags := tags2 }

/-! ## Row-level views and specification functions

The following definitions restate per-row behavior for comparison with the
table-level functions, and transcribe the specification's wording where it
differs from the code (needed to exhibit the divergence). -/

/-- Row lookup on the items table (the composite key `(key, library_id,
library_type)` is unique per table, which is per-library here). -/
def lookupItem (tbl : List ItemRow) (key : String) : Option ItemRow :=
  tbl.find? (fun r => r.key == key)

/-- Row lookup on the collections table. -/
def lookupCollection (tbl : List CollectionRow) (key : String) : Option CollectionRow :=
  tbl.find? (fun r => r.key == key)

/-- Row lookup on the tags table. -/
def lookupTag (tbl : List TagRow) (tag : String) : Option TagRow :=
  tbl.find? (fun r => r.tag == tag)

/-- Row-level result of `try_delete_item_local` for the row found at the
key: what the code does to that row. -/
def try_delete_row (dir : SyncDirection) (lmv : Int) : Option ItemRow → Option ItemRow
  | Option.none => Option.none
  | some r =>
    if r.deleted then some r
    else if r.sync = SyncStatus.synced then some { r with deleted := true }
    else if can_download dir then some { r with deleted := true }
    else some { r with version := lmv, sync := SyncStatus.synced }

/-- Row-level result of `try_delete_collection_local`. -/
def try_delete_collection_row (dir : SyncDirection) (lmv : Int) :
    Option CollectionRow → Option CollectionRow
  | Option.none => Option.none
  | some r =>
    if r.deleted then some r
    else if r.sync = SyncStatus.synced then some { r with deleted := true }
    else if can_download dir then some { r with deleted := true }
    else some { r with version := lmv, sync := SyncStatus.synced }

/-- The deletion treatment asserted by the specification, transcribed from
its words for comparison with the code: mark `deleted` when
`sync_status = synced` or `can_download ∧ ¬can_upload`; otherwise (unsynced
changes and the library can upload) keep the row and stamp it. -/
def try_delete_row_claimed (dir : SyncDirection) (lmv : Int) :
    Option ItemRow → Option ItemRow
  | Option.none => Option.none
  | some r =>
    if r.deleted then some r
    else if r.sync = SyncStatus.synced ∨ (can_download dir ∧ ¬ can_upload dir) then
      some { r with deleted := true }
    else some { r with version := lmv, sync := SyncStatus.synced }

/-- Whether the single write issued by `item_update_cloud` for this row
succeeds, as a function of the row and its response: a `deleted` row issues a
delete (success ⇔ 204); a `new`/`modified` row issues an upload (success ⇔
200/201/304); other rows issue no write and always succeed. -/
def item_write_ok (r : WriteResponse) (row : ItemRow) : Bool :=
  if row.deleted then r.status == 204
  else
    match row.sync with
    | .new | .modified => r.status == 200 || r.status == 201 || r.status == 304
    | _ => true

/-- Collection counterpart of `item_write_ok`. -/
def collection_write_ok (r : WriteResponse) (row : CollectionRow) : Bool :=
  if row.deleted then r.status == 204
  else
    match row.sync with
    | .new | .modified => r.status == 200 || r.status == 201 || r.status == 304
    | _ => true

/-! ## Concrete instances used by counterexamples and witnesses -/

/-- A queue table of 51 entries, all eligible for library `(1, group)`. -/
def bigQueueTable : List SyncQueueEntry :=
  (List.range 51).map (fun i =>
    { id := i, entity_type := "item", entity_key := "K", library_id := 1,
      library_type := LibraryType.group, operation := "update", priority := 0,
      retry_count := 0, max_retries := 5, next_retry_at := 0,
      last_error := Option.none, created_at := i, processed_at := Option.none })

/-- A locally modified, not-deleted item row. -/
def modifiedRow : ItemRow :=
  { key := "K1", version := 10, sync := SyncStatus.modified, trashed := false,
    deleted := false }

/-- An item row with `sync_status = incomplete`. -/
def incompleteRow : ItemRow :=
  { key := "K2", version := 7, sync := SyncStatus.incomplete, trashed := false,
    deleted := false }

/-- A collection row with `sync_status = incomplete`. -/
def incompleteCollectionRow : CollectionRow :=
  { key := "C2", version := 7, sync := SyncStatus.incomplete, deleted := false }

/-- Two modified items: the write of `"A"` will answer 412, the write of
`"B"` will answer 201 with `Last-Modified-Version: 50`. -/
def conflictItems : List ItemRow :=
  [{ key := "A", version := 3, sync := SyncStatus.modified, trashed := false,
     deleted := false },
   { key := "B", version := 4, sync := SyncStatus.modified, trashed := false,
     deleted := false }]

/-- Responses for `conflictItems`: a 412 for `"A"`, a 201 with
`Last-Modified-Version: 50` for everything else. -/
def conflictWrites : String → WriteResponse :=
  fun k => if k = "A" then ⟨412, Option.none, "conflict"⟩ else ⟨201, some 50, ""⟩

/-- An environment whose probes all answer with `Last-Modified-Version: 30`
and whose deletions feed is empty. -/
def benignEnv : CloudEnv :=
  { collectionsSinceHdr := fun _ => .ok (some 30),
    itemsSinceHdr := fun _ _ => .ok (some 30),
    tagsSinceHdr := fun _ => .ok (some 30),
    deletionsSinceHdr := fun _ => .ok (some 30),
    itemWrite := conflictWrites,
    collectionWrite := fun _ => ⟨201, some 50, ""⟩,
    remoteTags := [],
    deletions := { collections := [], searches := [], items := [], tags := [],
                   settings := [] } }

/-- A library state holding the two `conflictItems`, syncing both ways. -/
def conflictState : SyncState :=
  { lib := { id := 1, library_type := LibraryType.group, version := 5,
             item_version := 20, collection_version := 10, tag_version := 0,
             sync_direction := SyncDirection.bothCloud, sync_tags := false },
    items := conflictItems, collections := [], tags := [] }

/-- An empty download-only library state. -/
def plainState : SyncState :=
  { lib := { id := 3, library_type := LibraryType.user, version := 4,
             item_version := 7, collection_version := 9, tag_version := 2,
             sync_direction := SyncDirection.toLocal, sync_tags := false },
    items := [], collections := [], tags := [] }

/-- An environment every one of whose responses omits the
`Last-Modified-Version` header. -/
def absentHdrEnv : CloudEnv :=
  { collectionsSinceHdr := fun _ => .ok Option.none,
    itemsSinceHdr := fun _ _ => .ok Option.none,
    tagsSinceHdr := fun _ => .ok Option.none,
    deletionsSinceHdr := fun _ => .ok Option.none,
    itemWrite := fun _ => ⟨200, Option.none, ""⟩,
    collectionWrite := fun _ => ⟨200, Option.none, ""⟩,
    remoteTags := [],
    deletions := { collections := [], searches := [], items := [], tags := [],
                   settings := [] } }

end Postero

deriving instance DecidableEq for Except

namespace Postero

instance : IsTotal SyncQueueEntry queue_order where
  total a b := by
    unfold queue_order
    rcases lt_trichotomy a.priority b.priority with h | h | h
    · exact Or.inr (Or.inl h)
    · rcases le_total a.created_at b.created_at with h2 | h2
      · exact Or.inl (Or.inr ⟨h, h2⟩)
      · exact Or.inr (Or.inr ⟨h.symm, h2⟩)
    · exact Or.inl (Or.inl h)

instance : IsTrans SyncQueueEntry queue_order where
  trans a b c hab hbc := by
    unfold queue_order at *
    rcases hab with h1 | ⟨h1, h1'⟩ <;> rcases hbc with h2 | ⟨h2, h2'⟩
    · exact Or.inl (h2.trans h1)
    · exact Or.inl (h2 ▸ h1)
    · exact Or.inl (h1 ▸ h2)
    · exact Or.inr ⟨h1.trans h2, h1'.trans h2'⟩

/-! ## Theorems -/

/-- C5: `can_upload` holds exactly for to_cloud/both_cloud/both_local/both_manual,
`can_download` exactly for to_local/both_cloud/both_local/both_manual, and a
sync of a library whose direction is `none` returns success with the state
unchanged against every remote environment (so no remote call's outcome can
influence it — no inbound or outbound I/O). -/
theorem direction_policy_gates :
    (∀ d, can_upload d = true ↔
      (d = SyncDirection.toCloud ∨ d = SyncDirection.bothCloud ∨
       d = SyncDirection.bothLocal ∨ d = SyncDirection.bothManual))
    ∧ (∀ d, can_download d = true ↔
      (d = SyncDirection.toLocal ∨ d = SyncDirection.bothCloud ∨
       d = SyncDirection.bothLocal ∨ d = SyncDirection.bothManual))
    ∧ (∀ (st : SyncState) (env : CloudEnv),
        st.lib.sync_direction = SyncDirection.none → sync_model st env = .ok st) := by
  refine ⟨?_, ?_, ?_⟩
  · intro d; cases d <;> simp [can_upload]
  · intro d; cases d <;> simp [can_download]
  · intro st env h
    unfold sync_model
    rw [if_pos h]

/-- Witness for C5: a `none`-direction library syncs to itself. -/
theorem direction_policy_gates_witness :
    sync_model
        { lib := { id := 2, library_type := LibraryType.user, version := 1,
                   item_version := 2, collection_version := 3, tag_version := 4,
                   sync_direction := SyncDirection.none, sync_tags := true },
          items := [], collections := [], tags := [] } benignEnv
      = .ok { lib := { id := 2, library_type := LibraryType.user, version := 1,
                       item_version := 2, collection_version := 3, tag_version := 4,
                       sync_direction := SyncDirection.none, sync_tags := true },
              items := [], collections := [], tags := [] } :=
  direction_policy_gates.2.2 _ benignEnv rfl

/-- C2: for a write issued with baseline version `v`, 200/201 returns the
`Last-Modified-Version` header value (or `v + 1` when absent), 304 returns
`v`, and 412 returns an API error carrying code 412, for both item and
collection uploads. -/
theorem upload_write_version_semantics (v : Int) (r : WriteResponse) :
    ((r.status = 200 ∨ r.status = 201) →
        upload_item_result v r = .ok (r.lmvHeader.getD (v + 1))
        ∧ upload_collection_result v r = .ok (r.lmvHeader.getD (v + 1)))
    ∧ (r.status = 304 →
        upload_item_result v r = .ok v ∧ upload_collection_result v r = .ok v)
    ∧ (r.status = 412 →
        (∃ m, upload_item_result v r = .error (.api 412 m))
        ∧ ∃ m, upload_collection_result v r = .error (.api 412 m)) := by
  refine ⟨?_, ?_, ?_⟩
  · intro h
    constructor
    · unfold upload_item_result; rw [if_pos h]
    · unfold upload_collection_result; rw [if_pos h]
  · intro h
    constructor <;> simp [upload_item_result, upload_collection_result, h]
  · intro h
    exact ⟨⟨"Item has been modified remotely. Sync required.",
            by simp [upload_item_result, h]⟩,
           ⟨"Collection has been modified remotely. Sync required.",
            by simp [upload_collection_result, h]⟩⟩

/-- Witness for C2 at status 200 with the header present and at 304. -/
theorem upload_write_version_semantics_witness :
    upload_item_result 5 ⟨200, some 9, ""⟩ = .ok 9
    ∧ upload_collection_result 5 ⟨304, Option.none, ""⟩ = .ok 5 :=
  ⟨((upload_write_version_semantics 5 ⟨200, some 9, ""⟩).1 (Or.inl rfl)).1,
   ((upload_write_version_semantics 5 ⟨304, Option.none, ""⟩).2.1 rfl).2⟩

/-- C7 counterexample: a 429 (and a 503) without `Retry-After` or `Backoff`
headers causes zero seconds of sleep and is surfaced to the caller at once as
an API error with that code — there is no 1-second default backoff, no
doubling, and no retry anywhere in the client. -/
theorem rate_limit_no_default_backoff_counterexample :
    handle_rate_limiting_sleep ⟨Option.none, Option.none⟩ = 0
    ∧ upload_item_result 7 ⟨429, Option.none, ""⟩
        = .error (.api 429 "Rate limited or service unavailable")
    ∧ upload_collection_result 7 ⟨503, Option.none, ""⟩
        = .error (.api 503 "Rate limited or service unavailable") :=
  ⟨rfl, rfl, rfl⟩

/-- C7 (amended): the client sleeps only for the seconds advertised by the
`Backoff` and `Retry-After` headers (zero when both are absent), and a
429/503 response is always surfaced to the caller as an API error with that
status code. -/
theorem rate_limit_amended :
    (∀ h : RateHeaders, h.backoff = Option.none → h.retryAfter = Option.none →
        handle_rate_limiting_sleep h = 0)
    ∧ (∀ h : RateHeaders,
        handle_rate_limiting_sleep h = h.backoff.getD 0 + h.retryAfter.getD 0)
    ∧ (∀ (v : Int) (r : WriteResponse), r.status = 429 ∨ r.status = 503 →
        upload_item_result v r
            = .error (.api r.status "Rate limited or service unavailable")
        ∧ upload_collection_result v r
            = .error (.api r.status "Rate limited or service unavailable")) := by
  refine ⟨?_, ?_, ?_⟩
  · intro h h1 h2; simp [handle_rate_limiting_sleep, h1, h2]
  · intro h
    unfold handle_rate_limiting_sleep
    rcases h.backoff with _ | b <;> rcases h.retryAfter with _ | a <;> simp
  · intro v r h
    rcases h with h | h <;>
      constructor <;> simp [upload_item_result, upload_collection_result, h]

/-- Witness for C7's amended statement at a headerless 503. -/
theorem rate_limit_amended_witness :
    handle_rate_limiting_sleep ⟨some 4, Option.none⟩ = 4
    ∧ upload_item_result 3 ⟨503, some 9, "x"⟩
        = .error (.api 503 "Rate limited or service unavailable") :=
  ⟨rate_limit_amended.2.1 ⟨some 4, Option.none⟩,
   (rate_limit_amended.2.2 3 ⟨503, some 9, "x"⟩ (Or.inr rfl)).1⟩

/-- C4 counterexample: an item (and a collection) with
`sync_status = incomplete` is not selected by the upload phases — the query
keeps only `new` and `modified` — so it is not uploaded on the next full
sync; the phase leaves it untouched. -/
theorem incomplete_not_retried_counterexample :
    upload_items_select [incompleteRow] = []
    ∧ upload_items_model SyncDirection.toCloud 7 (.ok (some 30))
        (fun _ => ⟨201, some 50, ""⟩) [incompleteRow] = .ok (0, 30, [incompleteRow])
    ∧ sync_modified_collections_select [incompleteCollectionRow] = []
    ∧ sync_modified_collections_model 7 (fun _ => ⟨201, some 50, ""⟩)
        [incompleteCollectionRow] = (0, 7, [incompleteCollectionRow]) := by
  refine ⟨by decide, by decide, by decide, by decide⟩

/-- C4 (amended): the upload phases select exactly the `new` and `modified`
entities; an `incomplete` entity is never selected, and even `update_cloud`
on a non-deleted `incomplete` entity returns success without issuing a write
or changing the row. -/
theorem upload_selection_amended :
    (∀ (items : List ItemRow) r, r ∈ upload_items_select items →
        r.sync = SyncStatus.new ∨ r.sync = SyncStatus.modified)
    ∧ (∀ (items : List ItemRow) r, r.sync = SyncStatus.incomplete →
        r ∉ upload_items_select items)
    ∧ (∀ (cols : List CollectionRow) r, r ∈ sync_modified_collections_select cols →
        r.sync = SyncStatus.new ∨ r.sync = SyncStatus.modified)
    ∧ (∀ (cols : List CollectionRow) r, r.sync = SyncStatus.incomplete →
        r ∉ sync_modified_collections_select cols)
    ∧ (∀ (r : WriteResponse) (row : ItemRow) (lmv : Int), row.deleted = false →
        row.sync = SyncStatus.incomplete →
        item_update_cloud r row lmv = .ok (some row, lmv))
    ∧ (∀ (r : WriteResponse) (row : CollectionRow) (lv : Int), row.deleted = false →
        row.sync = SyncStatus.incomplete →
        collection_update_cloud r row lv = .ok (some row, lv)) := by
  have hitem : ∀ (items : List ItemRow) r, r ∈ upload_items_select items →
      r.sync = SyncStatus.new ∨ r.sync = SyncStatus.modified := by
    intro items r h
    unfold upload_items_select at h
    rw [List.mem_insertionSort] at h
    have := (List.mem_filter.mp h).2
    simpa using this
  have hcol : ∀ (cols : List CollectionRow) r, r ∈ sync_modified_collections_select cols →
      r.sync = SyncStatus.new ∨ r.sync = SyncStatus.modified := by
    intro cols r h
    have := (List.mem_filter.mp h).2
    simpa using this
  refine ⟨hitem, ?_, hcol, ?_, ?_, ?_⟩
  · intro items r hr hmem
    rcases hitem items r hmem with h | h <;> rw [hr] at h <;> cases h
  · intro cols r hr hmem
    rcases hcol cols r hmem with h | h <;> rw [hr] at h <;> cases h
  · intro r row lmv hdel hsync
    unfold item_update_cloud
    rw [if_neg (by simp [hdel]), hsync]
  · intro r row lv hdel hsync
    unfold collection_update_cloud
    rw [if_neg (by simp [hdel]), hsync]

/-- Witness for C4's amended statement on a concrete incomplete row. -/
theorem upload_selection_amended_witness :
    incompleteRow ∉ upload_items_select [incompleteRow]
    ∧ item_update_cloud ⟨201, some 9, ""⟩ incompleteRow 5 = .ok (some incompleteRow, 5) :=
  ⟨upload_selection_amended.2.1 [incompleteRow] incompleteRow rfl,
   upload_selection_amended.2.2.2.2.1 ⟨201, some 9, ""⟩ incompleteRow 5 rfl rfl⟩

/-- Rows of a tag upsert: either the freshly written row or an original row
whose tag differs from the upserted one. -/
theorem mem_tag_upsert {tbl : List TagRow} {k : String} {m : TagMeta} {row : TagRow}
    (h : row ∈ tag_upsert tbl k m) :
    row = { tag := k, meta := m } ∨ (row ∈ tbl ∧ row.tag ≠ k) := by
  unfold tag_upsert at h
  by_cases hany : tbl.any (fun r => r.tag == k)
  · rw [if_pos hany] at h
    rcases List.mem_map.mp h with ⟨orig, horig, heq⟩
    by_cases hk : orig.tag = k
    · left; rw [← heq, if_pos hk]
    · right; rw [← heq, if_neg hk]; exact ⟨horig, hk⟩
  · rw [if_neg hany] at h
    rcases List.mem_append.mp h with h | h
    · right
      refine ⟨h, fun hk => hany ?_⟩
      exact List.any_eq_true.mpr ⟨row, h, by simp [hk]⟩
    · left; simpa using h

/-- Every row of the tag table after folding the remote tags through
`create_tag_local` is either an untouched original row whose tag was not
among the processed ones, or has `num_items = 0`. -/
theorem mem_foldl_create_tag {remote : List RemoteTag} :
    ∀ {tbl : List TagRow} {row : TagRow}, row ∈ remote.foldl create_tag_local tbl →
      (row ∈ tbl ∧ row.tag ∉ remote.map (fun t => t.tag)) ∨ row.meta.num_items = 0 := by
  induction remote with
  | nil =>
    intro tbl row h
    exact Or.inl ⟨h, by simp⟩
  | cons t ts ih =>
    intro tbl row h
    rw [List.foldl_cons] at h
    rcases ih h with ⟨hmem, hnot⟩ | hz
    · rcases mem_tag_upsert hmem with rfl | ⟨hmem2, hne⟩
      · exact Or.inr rfl
      · refine Or.inl ⟨hmem2, ?_⟩
        simp only [List.map_cons, List.mem_cons]
        rintro (hc | hc)
        · exact hne hc
        · exact hnot (by simpa using hc)
    · exact Or.inr hz

/-- C10: the metadata stored for a tag is always `num_items = 0` — the item
count reported by the remote is never parsed and never stored — and in a
downloading tag phase every row whose tag was processed ends with
`num_items = 0`. -/
theorem tag_num_items_always_zero :
    (∀ t : RemoteTag, (create_tag_local_meta t).num_items = 0)
    ∧ (∀ dir (tv : Int) hdr remote tbl (ver : Int) (tags1 : List TagRow),
        can_download dir = true →
        sync_tags_model dir tv hdr remote tbl = .ok (ver, tags1) →
        ∀ row ∈ tags1, row.tag ∈ remote.map (fun t => t.tag) →
          row.meta.num_items = 0) := by
  constructor
  · intro t; rfl
  · intro dir tv hdr remote tbl ver tags1 hdl hok row hrow htag
    unfold sync_tags_model at hok
    rw [if_neg (by simp [hdl])] at hok
    rcases hdr with e | h
    · cases hok
    · simp only at hok
      have htags : tags1 = remote.foldl create_tag_local tbl := by
        injection hok with hok'
        injection hok' with _ h2
        exact h2.symm
      rw [htags] at hrow
      rcases mem_foldl_create_tag hrow with ⟨_, hnot⟩ | hz
      · exact absurd htag hnot
      · exact hz

/-- Witness for C10 on a concrete tag phase where the remote reports
`numItems = 99` for tag `"math"`. -/
theorem tag_num_items_always_zero_witness :
    ({ tag := "math", meta := { tag_type := 1, num_items := 0 } } : TagRow).meta.num_items
      = 0 :=
  tag_num_items_always_zero.2 SyncDirection.toLocal 0 (.ok (some 5))
    [{ tag := "math", tag_type := some 1, reported_num_items := some 99 }] [] 5
    [{ tag := "math", meta := { tag_type := 1, num_items := 0 } }] rfl (by decide)
    { tag := "math", meta := { tag_type := 1, num_items := 0 } } (by decide) (by decide)

/-- C8 counterexample: `fetch_pending` applies no cap of 50 — with 51
eligible entries and `batch_size = 51` it returns 51 entries (the cap is
applied only by the sync-worker binary when parsing `--batch-size`). -/
theorem fetch_pending_no_cap_counterexample :
    50 < (fetch_pending bigQueueTable 1 LibraryType.group 0 51).length := by
  decide

/-- C8 (amended): `fetch_pending` returns only entries of the requested
library with `processed_at` null, `retry_count < max_retries` and
`next_retry_at ≤ now`, ordered by priority descending then creation time
ascending; with `batch_size = 0` it returns the empty list, and in general at
most `batch_size` entries — there is no cap at 50 inside `fetch_pending`
itself. -/
theorem fetch_pending_amended (table : List SyncQueueEntry) (library_id : Int)
    (library_type : LibraryType) (now : Int) (batch_size : Int) :
    (∀ e ∈ fetch_pending table library_id library_type now batch_size,
        e.library_id = library_id ∧ e.library_type = library_type
        ∧ e.processed_at = Option.none ∧ e.retry_count < e.max_retries
        ∧ e.next_retry_at ≤ now)
    ∧ (fetch_pending table library_id library_type now batch_size).Sorted queue_order
    ∧ (fetch_pending table library_id library_type now batch_size).length
        ≤ batch_size.toNat
    ∧ (batch_size = 0 → fetch_pending table library_id library_type now batch_size = []) := by
  refine ⟨?_, ?_, ?_, ?_⟩
  · intro e he
    unfold fetch_pending at he
    have h1 := (List.take_sublist _ _).mem he
    rw [List.mem_insertionSort] at h1
    have h2 := (List.mem_filter.mp h1).2
    unfold fetch_pending_eligible at h2
    simp only [Bool.and_eq_true, beq_iff_eq, decide_eq_true_eq] at h2
    exact ⟨h2.1.1.1.1, h2.1.1.1.2, h2.1.1.2, h2.1.2, h2.2⟩
  · exact (List.sorted_insertionSort queue_order _).sublist (List.take_sublist _ _)
  · unfold fetch_pending
    rw [List.length_take]
    exact min_le_left _ _
  · intro h
    unfold fetch_pending
    rw [h]
    rfl

/-- Witness for C8's amended statement: the zero batch is empty, and a
concrete returned entry satisfies the selection conditions. -/
theorem fetch_pending_amended_witness :
    fetch_pending bigQueueTable 1 LibraryType.group 0 0 = []
    ∧ ({ id := 0, entity_type := "item", entity_key := "K", library_id := 1,
         library_type := LibraryType.group, operation := "update", priority := 0,
         retry_count := 0, max_retries := 5, next_retry_at := 0,
         last_error := Option.none, created_at := 0,
         processed_at := Option.none } : SyncQueueEntry).library_id = 1 :=
  ⟨(fetch_pending_amended bigQueueTable 1 LibraryType.group 0 0).2.2.2 rfl,
   ((fetch_pending_amended bigQueueTable 1 LibraryType.group 0 5).1 _ (by decide)).1⟩

/-- An item's `update_cloud` succeeds exactly when the one write it issues
succeeds, independently of the current version and of the rest of the table. -/
theorem item_update_cloud_ok_iff (r : WriteResponse) (row : ItemRow) (lmv : Int) :
    (∃ out, item_update_cloud r row lmv = .ok out) ↔ item_write_ok r row = true := by
  unfold item_update_cloud item_write_ok delete_item_result upload_item_result
  by_cases hd : row.deleted <;> cases hs : row.sync <;>
    simp only [hd, hs, if_pos, if_neg, if_true, if_false, Bool.false_eq_true,
      not_false_eq_true] <;>
    first
      | (split_ifs <;> simp_all)
      | simp

/-- Collection counterpart of `item_update_cloud_ok_iff`. -/
theorem collection_update_cloud_ok_iff (r : WriteResponse) (row : CollectionRow)
    (lv : Int) :
    (∃ out, collection_update_cloud r row lv = .ok out)
      ↔ collection_write_ok r row = true := by
  unfold collection_update_cloud collection_write_ok delete_collection_result
    upload_collection_result
  by_cases hd : row.deleted <;> cases hs : row.sync <;>
    simp only [hd, hs, if_pos, if_neg, if_true, if_false, Bool.false_eq_true,
      not_false_eq_true] <;>
    first
      | (split_ifs <;> simp_all)
      | simp

/-- The counter of the `upload_items` loop counts exactly the rows whose
write succeeded: every failing row — a 412 conflict included — is skipped
and the loop continues with the remaining rows. -/
theorem foldl_upload_items_counter (resp : String → WriteResponse) :
    ∀ (rows : List ItemRow) (c lmv : Int) (tbl : List ItemRow),
      (rows.foldl (upload_items_step resp) (c, lmv, tbl)).1
        = c + ((rows.countP (fun r => item_write_ok (resp r.key) r) : Nat) : Int) := by
  intro rows
  induction rows with
  | nil => intro c lmv tbl; simp
  | cons row rs ih =>
    intro c lmv tbl
    rw [List.foldl_cons, List.countP_cons]
    by_cases hok : item_write_ok (resp row.key) row = true
    · rcases (item_update_cloud_ok_iff (resp row.key) row lmv).mpr hok with ⟨out, hout⟩
      rcases out with ⟨r', v⟩
      have hstep : upload_items_step resp (c, lmv, tbl) row
          = (c + 1, v, apply_row_item tbl row.key r') := by
        unfold upload_items_step
        rw [hout]
      rw [hstep, ih, hok]
      simp only [if_true]
      push_cast
      ring
    · have hnone : ∀ out, item_update_cloud (resp row.key) row lmv ≠ .ok out := by
        intro out hc
        exact hok ((item_update_cloud_ok_iff _ _ _).mp ⟨out, hc⟩)
      have hstep : upload_items_step resp (c, lmv, tbl) row = (c, lmv, tbl) := by
        unfold upload_items_step
        rcases hout : item_update_cloud (resp row.key) row lmv with e | out
        · rfl
        · exact absurd hout (hnone out)
      rw [hstep, ih]
      simp [Bool.eq_false_iff.mpr hok]

/-- Collection counterpart of `foldl_upload_items_counter`. -/
theorem foldl_upload_collections_counter (resp : String → WriteResponse) :
    ∀ (rows : List CollectionRow) (c lv : Int) (tbl : List CollectionRow),
      (rows.foldl (sync_modified_collections_step resp) (c, lv, tbl)).1
        = c + ((rows.countP (fun r => collection_write_ok (resp r.key) r) : Nat) : Int) := by
  intro rows
  induction rows with
  | nil => intro c lv tbl; simp
  | cons row rs ih =>
    intro c lv tbl
    rw [List.foldl_cons, List.countP_cons]
    by_cases hok : collection_write_ok (resp row.key) row = true
    · rcases (collection_update_cloud_ok_iff (resp row.key) row lv).mpr hok with ⟨out, hout⟩
      rcases out with ⟨r', v⟩
      have hstep : sync_modified_collections_step resp (c, lv, tbl) row
          = (c + 1, v, apply_row_collection tbl row.key r') := by
        unfold sync_modified_collections_step
        rw [hout]
      rw [hstep, ih, hok]
      simp only [if_true]
      push_cast
      ring
    · have hnone : ∀ out, collection_update_cloud (resp row.key) row lv ≠ .ok out := by
        intro out hc
        exact hok ((collection_update_cloud_ok_iff _ _ _).mp ⟨out, hc⟩)
      have hstep : sync_modified_collections_step resp (c, lv, tbl) row = (c, lv, tbl) := by
        unfold sync_modified_collections_step
        rcases hout : collection_update_cloud (resp row.key) row lv with e | out
        · rfl
        · exact absurd hout (hnone out)
      rw [hstep, ih]
      simp [Bool.eq_false_iff.mpr hok]

/-- C3 counterexample: in a full sync of a `both_cloud` library with two
modified items, the write of item `"A"` answers 412 while `"B"` answers 201.
The upload phase does not abort and surfaces no conflict: it returns `Ok`
with counter 1, `"B"` uploaded and marked `synced`, and the whole `sync`
returns `Ok` as well — the 412 is only logged, `"A"` stays `modified`. -/
theorem upload_conflict_not_surfaced_counterexample :
    upload_items_model SyncDirection.bothCloud 20 (.ok (some 30)) conflictWrites
        conflictItems
      = .ok (1, 50,
          [{ key := "A", version := 3, sync := SyncStatus.modified, trashed := false,
             deleted := false },
           { key := "B", version := 50, sync := SyncStatus.synced, trashed := false,
             deleted := false }])
    ∧ sync_model conflictState benignEnv
      = .ok { lib := { id := 1, library_type := LibraryType.group, version := 5,
                       item_version := 30, collection_version := 30, tag_version := 0,
                       sync_direction := SyncDirection.bothCloud, sync_tags := false },
              items := [{ key := "A", version := 3, sync := SyncStatus.modified,
                          trashed := false, deleted := false },
                        { key := "B", version := 50, sync := SyncStatus.synced,
                          trashed := false, deleted := false }],
              collections := [], tags := [] } := by
  refine ⟨by decide, by decide⟩

/-- C3 (amended): the upload phases never abort on a per-entity error — a
412 conflict included. Given a successful baseline probe, `upload_items`
always returns `Ok`; its counter equals the number of selected entities
whose write succeeded, the failing ones being logged and skipped while the
loop continues; and the collections upload loop is total with the same
counter property. -/
theorem upload_phases_continue_on_errors :
    (∀ dir (v : Int) (h : Option Int) resp items,
        ∃ out, upload_items_model dir v (.ok h) resp items = .ok out)
    ∧ (∀ dir (v : Int) (h : Option Int) resp items out,
        can_upload dir = true →
        upload_items_model dir v (.ok h) resp items = .ok out →
        out.1 = (((upload_items_select items).countP
          (fun r => item_write_ok (resp r.key) r) : Nat) : Int))
    ∧ (∀ (cv : Int) resp cols,
        (sync_modified_collections_model cv resp cols).1
          = (((sync_modified_collections_select cols).countP
              (fun r => collection_write_ok (resp r.key) r) : Nat) : Int)) := by
  refine ⟨?_, ?_, ?_⟩
  · intro dir v h resp items
    unfold upload_items_model
    by_cases hu : can_upload dir
    · rw [if_neg (by simp [hu])]
      exact ⟨_, rfl⟩
    · rw [if_pos (by simp [hu])]
      exact ⟨_, rfl⟩
  · intro dir v h resp items out hu hok
    unfold upload_items_model at hok
    rw [if_neg (by simp [hu])] at hok
    simp only at hok
    injection hok with hok'
    rw [← hok']
    have hc := foldl_upload_items_counter resp (upload_items_select items) 0 (h.getD 0) items
    rw [hc]
    ring
  · intro cv resp cols
    unfold sync_modified_collections_model
    have hc := foldl_upload_collections_counter resp (sync_modified_collections_select cols)
      0 cv cols
    rw [hc]
    ring

/-- Witness for C3's amended statement on the concrete conflicting batch:
the phase's counter is 1 — only the write of `"B"` succeeded. -/
theorem upload_phases_continue_on_errors_witness :
    (1 : Int) = (((upload_items_select conflictItems).countP
      (fun r => item_write_ok (conflictWrites r.key) r) : Nat) : Int) :=
  upload_phases_continue_on_errors.2.1 SyncDirection.bothCloud 20 (some 30)
    conflictWrites conflictItems
    (1, 50,
      [{ key := "A", version := 3, sync := SyncStatus.modified, trashed := false,
         deleted := false },
       { key := "B", version := 50, sync := SyncStatus.synced, trashed := false,
         deleted := false }]) rfl (by decide)

/-- The candidate collection version of `sync_collections` never goes below
the library's current `collection_version`, whatever the remote reports. -/
theorem sync_collections_model_le (dir : SyncDirection) (cv : Int)
    (hdr : Int → Except ZErr (Option Int)) (resp : String → WriteResponse)
    (cols : List CollectionRow) (out : Int × Int × List CollectionRow)
    (h : sync_collections_model dir cv hdr resp cols = .ok out) : cv ≤ out.2.1 := by
  unfold sync_collections_model at h
  by_cases hdl : can_download dir
  · rw [if_pos hdl] at h
    rcases hh : hdr cv with e | ho
    · rw [hh] at h
      exact (Except.noConfusion h)
    · rw [hh] at h
      simp only at h
      injection h with h1
      rw [← h1]
      simp only
      split_ifs with hlt
      · exact le_of_lt hlt
      · exact le_refl cv
  · rw [if_neg hdl] at h
    injection h with h1
    rw [← h1]

/-- The candidate item version of `download_items` never goes below the
library's current `item_version`, whatever the remote reports. -/
theorem download_items_model_le (dir : SyncDirection) (iv : Int)
    (hdr : Int → Bool → Except ZErr (Option Int)) (out : Int)
    (h : download_items_model dir iv hdr = .ok out) : iv ≤ out := by
  unfold download_items_model at h
  by_cases hdl : can_download dir
  · rw [if_neg (by simp [hdl])] at h
    rcases h1 : hdr iv true with e | ho1
    · rw [h1] at h
      exact (Except.noConfusion h)
    · rw [h1] at h
      simp only at h
      rcases h2 : hdr iv false with e | ho2
      · rw [h2] at h
        exact (Except.noConfusion h)
      · rw [h2] at h
        simp only at h
        injection h with h3
        rw [← h3]
        set l1 := if iv < ho1.getD iv then ho1.getD iv else iv with hl1
        have hle1 : iv ≤ l1 := by
          rw [hl1]
          split_ifs with h4
          · exact le_of_lt h4
          · exact le_refl iv
        by_cases h5 : l1 < ho2.getD iv
        · rw [if_pos h5]
          exact hle1.trans (le_of_lt h5)
        · rw [if_neg h5]
          exact hle1
  · rw [if_pos (by simp [hdl])] at h
    injection h with h1
    rw [← h1]

/-- C9: the version watermarks are monotone. The collections phase starts
its candidate from `collection_version` and replaces it only with a strictly
larger reported version; the item download phase does the same from
`item_version`; and every successful run of `sync` commits
`collection_version` and `item_version` values at least as large as before
the run — also when a response omits the `Last-Modified-Version` header
(the client then falls back to the `since` value it sent) or reports a
smaller version. -/
theorem version_watermarks_monotone :
    (∀ dir (cv : Int) hdr resp cols out,
        sync_collections_model dir cv hdr resp cols = .ok out → cv ≤ out.2.1)
    ∧ (∀ dir (iv : Int) hdr out,
        download_items_model dir iv hdr = .ok out → iv ≤ out)
    ∧ (∀ (st : SyncState) (env : CloudEnv) (out : SyncState),
        sync_model st env = .ok out →
        st.lib.collection_version ≤ out.lib.collection_version
        ∧ st.lib.item_version ≤ out.lib.item_version) := by
  refine ⟨fun dir cv hdr resp cols out h => sync_collections_model_le dir cv hdr resp cols out h,
          fun dir iv hdr out h => download_items_model_le dir iv hdr out h, ?_⟩
  intro st env out h
  unfold sync_model at h
  by_cases hnone : st.lib.sync_direction = SyncDirection.none
  · rw [if_pos hnone] at h
    injection h with h1
    rw [← h1]
    exact ⟨le_refl _, le_refl _⟩
  · rw [if_neg hnone] at h
    split at h
    · exact (Except.noConfusion h)
    · rename_i c1 cver cols1 heq1
      split at h
      · exact (Except.noConfusion h)
      · rename_i c2 iv2 items1 heq2
        split at h
        · exact (Except.noConfusion h)
        · rename_i iver heq3
          split at h
          · exact (Except.noConfusion h)
          · rename_i tver tags1 heq4
            split at h
            · exact (Except.noConfusion h)
            · rename_i items2 cols2 tags2 heq5
              injection h with h1
              rw [← h1]
              exact ⟨sync_collections_model_le _ _ _ _ _ _ heq1,
                     download_items_model_le _ _ _ _ heq3⟩

/-- Witness for C9: a download-only sync against responses that all omit the
`Last-Modified-Version` header keeps both watermarks unchanged. -/
theorem version_watermarks_monotone_witness :
    plainState.lib.collection_version ≤ plainState.lib.collection_version
    ∧ plainState.lib.item_version ≤ plainState.lib.item_version :=
  version_watermarks_monotone.2.2 plainState absentHdrEnv plainState (by decide)

/-- A key-preserving map commutes with row lookup on the items table. -/
theorem find?_map_item (g : ItemRow → ItemRow) (hg : ∀ r, (g r).key = r.key)
    (k : String) :
    ∀ tbl : List ItemRow, (tbl.map g).find? (fun r => r.key == k)
      = (tbl.find? (fun r => r.key == k)).map g := by
  intro tbl
  induction tbl with
  | nil => rfl
  | cons a l ih =>
    rw [List.map_cons]
    by_cases h : a.key = k
    · rw [List.find?_cons_of_pos _ (by simp [hg, h]),
          List.find?_cons_of_pos _ (by simp [h])]
      rfl
    · rw [List.find?_cons_of_neg _ (by simp [hg, h]),
          List.find?_cons_of_neg _ (by simp [h])]
      exact ih

/-- A key-preserving map commutes with row lookup on the collections table. -/
theorem find?_map_collection (g : CollectionRow → CollectionRow)
    (hg : ∀ r, (g r).key = r.key) (k : String) :
    ∀ tbl : List CollectionRow, (tbl.map g).find? (fun r => r.key == k)
      = (tbl.find? (fun r => r.key == k)).map g := by
  intro tbl
  induction tbl with
  | nil => rfl
  | cons a l ih =>
    rw [List.map_cons]
    by_cases h : a.key = k
    · rw [List.find?_cons_of_pos _ (by simp [hg, h]),
          List.find?_cons_of_pos _ (by simp [h])]
      rfl
    · rw [List.find?_cons_of_neg _ (by simp [hg, h]),
          List.find?_cons_of_neg _ (by simp [h])]
      exact ih

/-- At the tombstoned key, `try_delete_item_local` acts as the row
transformer `try_delete_row` on the looked-up row. -/
theorem lookupItem_try_delete (dir : SyncDirection) (tbl : List ItemRow) (k : String)
    (lmv : Int) :
    lookupItem (try_delete_item_local dir tbl k lmv) k
      = try_delete_row dir lmv (lookupItem tbl k) := by
  unfold try_delete_item_local try_delete_row lookupItem
  rcases hfind : tbl.find? (fun r => r.key == k) with _ | row
  · simp only [hfind]
  · simp only [hfind]
    have hkey : row.key = k := by simpa using List.find?_some hfind
    by_cases hdel : row.deleted
    · rw [if_pos hdel, if_pos hdel, hfind]
    · rw [if_neg hdel, if_neg hdel]
      by_cases hsync : row.sync = SyncStatus.synced
      · rw [if_pos hsync, if_pos hsync,
            find?_map_item _ (fun r => by by_cases hr : r.key = k <;> simp [hr]) k tbl,
            hfind]
        simp [hkey]
      · rw [if_neg hsync, if_neg hsync]
        by_cases hdl : can_download dir
        · rw [if_pos hdl, if_pos hdl,
              find?_map_item _ (fun r => by by_cases hr : r.key = k <;> simp [hr]) k tbl,
              hfind]
          simp [hkey]
        · rw [if_neg hdl, if_neg hdl,
              find?_map_item _ (fun r => by by_cases hr : r.key = k <;> simp [hr]) k tbl,
              hfind]
          simp [hkey]

/-- Collection counterpart of `lookupItem_try_delete`. -/
theorem lookupCollection_try_delete (dir : SyncDirection) (tbl : List CollectionRow)
    (k : String) (lmv : Int) :
    lookupCollection (try_delete_collection_local dir tbl k lmv) k
      = try_delete_collection_row dir lmv (lookupCollection tbl k) := by
  unfold try_delete_collection_local try_delete_collection_row lookupCollection
  rcases hfind : tbl.find? (fun r => r.key == k) with _ | row
  · simp only [hfind]
  · simp only [hfind]
    have hkey : row.key = k := by simpa using List.find?_some hfind
    by_cases hdel : row.deleted
    · rw [if_pos hdel, if_pos hdel, hfind]
    · rw [if_neg hdel, if_neg hdel]
      by_cases hsync : row.sync = SyncStatus.synced
      · rw [if_pos hsync, if_pos hsync,
            find?_map_collection _ (fun r => by by_cases hr : r.key = k <;> simp [hr]) k tbl,
            hfind]
        simp [hkey]
      · rw [if_neg hsync, if_neg hsync]
        by_cases hdl : can_download dir
        · rw [if_pos hdl, if_pos hdl,
              find?_map_collection _ (fun r => by by_cases hr : r.key = k <;> simp [hr]) k tbl,
              hfind]
          simp [hkey]
        · rw [if_neg hdl, if_neg hdl,
              find?_map_collection _ (fun r => by by_cases hr : r.key = k <;> simp [hr]) k tbl,
              hfind]
          simp [hkey]

/-- At any other key, `try_delete_item_local` leaves the lookup unchanged. -/
theorem lookupItem_try_delete_ne (dir : SyncDirection) (tbl : List ItemRow) (k : String)
    (lmv : Int) (k' : String) (hne : k' ≠ k) :
    lookupItem (try_delete_item_local dir tbl k lmv) k' = lookupItem tbl k' := by
  unfold try_delete_item_local lookupItem
  have H : ∀ g : ItemRow → ItemRow, (∀ r, (g r).key = r.key) →
      (∀ r, r.key = k' → g r = r) →
      (tbl.map g).find? (fun r => r.key == k') = tbl.find? (fun r => r.key == k') := by
    intro g hg hfix
    rw [find?_map_item g hg k' tbl]
    rcases h2 : tbl.find? (fun r => r.key == k') with _ | row2
    · simp [h2]
    · have hk2 : row2.key = k' := by simpa using List.find?_some h2
      simp [h2, hfix row2 hk2]
  rcases hfind : tbl.find? (fun r => r.key == k) with _ | row
  · simp only [hfind]
  · simp only [hfind]
    by_cases hdel : row.deleted
    · rw [if_pos hdel]
    · rw [if_neg hdel]
      by_cases hsync : row.sync = SyncStatus.synced
      · rw [if_pos hsync]
        exact H _ (fun r => by by_cases hr : r.key = k <;> simp [hr])
          (fun r hr => by rw [if_neg (fun hc => hne (hr.symm.trans hc))])
      · rw [if_neg hsync]
        by_cases hdl : can_download dir
        · rw [if_pos hdl]
          exact H _ (fun r => by by_cases hr : r.key = k <;> simp [hr])
            (fun r hr => by rw [if_neg (fun hc => hne (hr.symm.trans hc))])
        · rw [if_neg hdl]
          exact H _ (fun r => by by_cases hr : r.key = k <;> simp [hr])
            (fun r hr => by rw [if_neg (fun hc => hne (hr.symm.trans hc))])

/-- Collection counterpart of `lookupItem_try_delete_ne`. -/
theorem lookupCollection_try_delete_ne (dir : SyncDirection) (tbl : List CollectionRow)
    (k : String) (lmv : Int) (k' : String) (hne : k' ≠ k) :
    lookupCollection (try_delete_collection_local dir tbl k lmv) k'
      = lookupCollection tbl k' := by
  unfold try_delete_collection_local lookupCollection
  have H : ∀ g : CollectionRow → CollectionRow, (∀ r, (g r).key = r.key) →
      (∀ r, r.key = k' → g r = r) →
      (tbl.map g).find? (fun r => r.key == k') = tbl.find? (fun r => r.key == k') := by
    intro g hg hfix
    rw [find?_map_collection g hg k' tbl]
    rcases h2 : tbl.find? (fun r => r.key == k') with _ | row2
    · simp [h2]
    · have hk2 : row2.key = k' := by simpa using List.find?_some h2
      simp [h2, hfix row2 hk2]
  rcases hfind : tbl.find? (fun r => r.key == k) with _ | row
  · simp only [hfind]
  · simp only [hfind]
    by_cases hdel : row.deleted
    · rw [if_pos hdel]
    · rw [if_neg hdel]
      by_cases hsync : row.sync = SyncStatus.synced
      · rw [if_pos hsync]
        exact H _ (fun r => by by_cases hr : r.key = k <;> simp [hr])
          (fun r hr => by rw [if_neg (fun hc => hne (hr.symm.trans hc))])
      · rw [if_neg hsync]
        by_cases hdl : can_download dir
        · rw [if_pos hdl]
          exact H _ (fun r => by by_cases hr : r.key = k <;> simp [hr])
            (fun r hr => by rw [if_neg (fun hc => hne (hr.symm.trans hc))])
        · rw [if_neg hdl]
          exact H _ (fun r => by by_cases hr : r.key = k <;> simp [hr])
            (fun r hr => by rw [if_neg (fun hc => hne (hr.symm.trans hc))])

/-- Folding deletions over keys not containing `k` leaves the lookup at `k`
unchanged. -/
theorem lookup_foldl_try_delete_not_mem (dir : SyncDirection) (lmv : Int) :
    ∀ (keys : List String) (tbl : List ItemRow) (k : String), k ∉ keys →
      lookupItem (keys.foldl (fun t x => try_delete_item_local dir t x lmv) tbl) k
        = lookupItem tbl k := by
  intro keys
  induction keys with
  | nil => intro tbl k _; rfl
  | cons x xs ih =>
    intro tbl k hk
    rw [List.foldl_cons]
    have hne : k ≠ x := fun hc => hk (hc ▸ List.mem_cons_self x xs)
    rw [ih _ k (fun hc => hk (List.mem_cons_of_mem x hc)),
        lookupItem_try_delete_ne dir tbl x lmv k hne]

/-- With pairwise distinct keys, the deletions fold treats each listed key
by the row transformer applied to the original table. -/
theorem lookup_foldl_try_delete_mem (dir : SyncDirection) (lmv : Int) :
    ∀ (keys : List String) (tbl : List ItemRow) (k : String), keys.Nodup → k ∈ keys →
      lookupItem (keys.foldl (fun t x => try_delete_item_local dir t x lmv) tbl) k
        = try_delete_row dir lmv (lookupItem tbl k) := by
  intro keys
  induction keys with
  | nil => intro tbl k _ hmem; cases hmem
  | cons x xs ih =>
    intro tbl k hnd hmem
    rw [List.foldl_cons]
    rcases List.mem_cons.mp hmem with rfl | hmem2
    · have hx : k ∉ xs := (List.nodup_cons.mp hnd).1
      rw [lookup_foldl_try_delete_not_mem dir lmv xs _ k hx, lookupItem_try_delete]
    · have hne : k ≠ x := fun hc => (List.nodup_cons.mp hnd).1 (hc ▸ hmem2)
      rw [ih _ k (List.nodup_cons.mp hnd).2 hmem2,
          lookupItem_try_delete_ne dir tbl x lmv k hne]

/-- Collection counterpart of `lookup_foldl_try_delete_not_mem`. -/
theorem lookup_foldl_try_delete_coll_not_mem (dir : SyncDirection) (lmv : Int) :
    ∀ (keys : List String) (tbl : List CollectionRow) (k : String), k ∉ keys →
      lookupCollection
          (keys.foldl (fun t x => try_delete_collection_local dir t x lmv) tbl) k
        = lookupCollection tbl k := by
  intro keys
  induction keys with
  | nil => intro tbl k _; rfl
  | cons x xs ih =>
    intro tbl k hk
    rw [List.foldl_cons]
    have hne : k ≠ x := fun hc => hk (hc ▸ List.mem_cons_self x xs)
    rw [ih _ k (fun hc => hk (List.mem_cons_of_mem x hc)),
        lookupCollection_try_delete_ne dir tbl x lmv k hne]

/-- Collection counterpart of `lookup_foldl_try_delete_mem`. -/
theorem lookup_foldl_try_delete_coll_mem (dir : SyncDirection) (lmv : Int) :
    ∀ (keys : List String) (tbl : List CollectionRow) (k : String), keys.Nodup →
      k ∈ keys →
      lookupCollection
          (keys.foldl (fun t x => try_delete_collection_local dir t x lmv) tbl) k
        = try_delete_collection_row dir lmv (lookupCollection tbl k) := by
  intro keys
  induction keys with
  | nil => intro tbl k _ hmem; cases hmem
  | cons x xs ih =>
    intro tbl k hnd hmem
    rw [List.foldl_cons]
    rcases List.mem_cons.mp hmem with rfl | hmem2
    · have hx : k ∉ xs := (List.nodup_cons.mp hnd).1
      rw [lookup_foldl_try_delete_coll_not_mem dir lmv xs _ k hx,
          lookupCollection_try_delete]
    · have hne : k ≠ x := fun hc => (List.nodup_cons.mp hnd).1 (hc ▸ hmem2)
      rw [ih _ k (List.nodup_cons.mp hnd).2 hmem2,
          lookupCollection_try_delete_ne dir tbl x lmv k hne]

/-- C1 counterexample: a locally `modified` (unsynced) item in a
`both_cloud` library (which can download **and** upload) is marked
`deleted = true` by the code, whereas the claim requires it to be kept and
stamped with the remote version and `sync_status = synced`; the two
resulting rows differ. -/
theorem deletions_unsynced_bidirectional_counterexample :
    can_download SyncDirection.bothCloud = true
    ∧ can_upload SyncDirection.bothCloud = true
    ∧ modifiedRow.sync ≠ SyncStatus.synced
    ∧ try_delete_item_local SyncDirection.bothCloud [modifiedRow] "K1" 42
        = [{ modifiedRow with deleted := true }]
    ∧ try_delete_row_claimed SyncDirection.bothCloud 42 (some modifiedRow)
        = some { modifiedRow with version := 42, sync := SyncStatus.synced }
    ∧ ({ modifiedRow with deleted := true } : ItemRow)
        ≠ { modifiedRow with version := 42, sync := SyncStatus.synced } := by
  refine ⟨rfl, rfl, by decide, by decide, by decide, by decide⟩

/-- C1 (amended): in the deletions phase, for every key listed in the remote
deletions feed: an absent or already-deleted row is untouched; a row with
`sync_status = synced` — or **any** row when the library can download (the
code tests `can_download` alone, not `can_download ∧ ¬can_upload`) — is
marked `deleted = true`; only when the library cannot download is an
unsynced row kept, stamped with `version = remote LMV` and
`sync_status = synced`. Since `sync_deleted` runs only when `can_download`
holds, within a full sync every present, not-yet-deleted listed row is
marked deleted. -/
theorem deletions_phase_amended :
    (∀ dir (lmv : Int), try_delete_row dir lmv Option.none = Option.none)
    ∧ (∀ dir (lmv : Int) (r : ItemRow), r.deleted = true →
        try_delete_row dir lmv (some r) = some r)
    ∧ (∀ dir (lmv : Int) (r : ItemRow), r.deleted = false →
        (r.sync = SyncStatus.synced ∨ can_download dir = true) →
        try_delete_row dir lmv (some r) = some { r with deleted := true })
    ∧ (∀ dir (lmv : Int) (r : ItemRow), r.deleted = false →
        r.sync ≠ SyncStatus.synced → can_download dir = false →
        try_delete_row dir lmv (some r)
          = some { r with version := lmv, sync := SyncStatus.synced })
    ∧ (∀ dir (lmv : Int) (r : CollectionRow), r.deleted = false →
        (r.sync = SyncStatus.synced ∨ can_download dir = true) →
        try_delete_collection_row dir lmv (some r) = some { r with deleted := true })
    ∧ (∀ dir tbl k (lmv : Int),
        lookupItem (try_delete_item_local dir tbl k lmv) k
          = try_delete_row dir lmv (lookupItem tbl k))
    ∧ (∀ dir tbl k (lmv : Int),
        lookupCollection (try_delete_collection_local dir tbl k lmv) k
          = try_delete_collection_row dir lmv (lookupCollection tbl k))
    ∧ (∀ dir (lv : Int) (h : Option Int) feed (items : List ItemRow)
        (cols : List CollectionRow) (tags : List TagRow) out,
        sync_deleted_model dir lv (.ok h) feed items cols tags = .ok out →
        can_download dir = true →
        (feed.items.Nodup → ∀ k ∈ feed.items,
          lookupItem out.1 k = try_delete_row dir (h.getD lv) (lookupItem items k))
        ∧ (feed.collections.Nodup → ∀ k ∈ feed.collections,
          lookupCollection out.2.1 k
            = try_delete_collection_row dir (h.getD lv) (lookupCollection cols k))) := by
  refine ⟨?_, ?_, ?_, ?_, ?_, ?_, ?_, ?_⟩
  · intro dir lmv; rfl
  · intro dir lmv r h
    simp [try_delete_row, h]
  · intro dir lmv r hdel hc
    rcases hc with hc | hc
    · simp [try_delete_row, hdel, hc]
    · by_cases hs : r.sync = SyncStatus.synced <;> simp [try_delete_row, hdel, hc, hs]
  · intro dir lmv r hdel hs hdl
    simp [try_delete_row, hdel, hs, hdl]
  · intro dir lmv r hdel hc
    rcases hc with hc | hc
    · simp [try_delete_collection_row, hdel, hc]
    · by_cases hs : r.sync = SyncStatus.synced <;>
        simp [try_delete_collection_row, hdel, hc, hs]
  · intro dir tbl k lmv
    exact lookupItem_try_delete dir tbl k lmv
  · intro dir tbl k lmv
    exact lookupCollection_try_delete dir tbl k lmv
  · intro dir lv h feed items cols tags out hok hdl
    unfold sync_deleted_model at hok
    rw [if_neg (by simp [hdl])] at hok
    simp only at hok
    injection hok with hok1
    rw [← hok1]
    constructor
    · intro hnd k hk
      exact lookup_foldl_try_delete_mem dir (h.getD lv) feed.items items k hnd hk
    · intro hnd k hk
      exact lookup_foldl_try_delete_coll_mem dir (h.getD lv) feed.collections cols k hnd hk

/-- Witness for C1's amended statement: a concrete deletions phase of a
download-only library marks the listed modified item deleted. -/
theorem deletions_phase_amended_witness :
    lookupItem [{ modifiedRow with deleted := true }] "K1"
      = try_delete_row SyncDirection.toLocal 30 (lookupItem [modifiedRow] "K1") :=
  ((deletions_phase_amended.2.2.2.2.2.2.2 SyncDirection.toLocal 5 (some 30)
      { collections := [], searches := [], items := ["K1"], tags := [], settings := [] }
      [modifiedRow] [] [] ([{ modifiedRow with deleted := true }], [], [])
      (by decide) rfl).1 (by decide) "K1" (by decide))

/-- C6: for an attachment whose linkMode is imported_file or linked_file and
whose cloud md5 is `m`: an object-store copy hashing to `m` short-circuits
to success with nothing written, whatever the network would answer; a 404 on
the redirect-URL request is success with nothing written; downloaded bytes
hashing differently from `m` fail with a Validation error and nothing is
written; otherwise the bytes are written at `attachments/{key}/{filename}`. -/
theorem attachment_download_integrity (hash : List Nat → String)
    (item : AttachmentInput) (m : String)
    (hlink : item.link_mode = "linked_file" ∨ item.link_mode = "imported_file")
    (hmd5 : item.cloud_md5 = some m) :
    (∀ env : AttachmentEnv, ∀ data, env.existing = some data → hash data = m →
        download_attachment_cloud hash env item = .ok Option.none)
    ∧ (∀ env : AttachmentEnv, ∀ msg, env.url_result = .error (.api 404 msg) →
        download_attachment_cloud hash env item = .ok Option.none)
    ∧ (∀ env : AttachmentEnv, ∀ u data, env.url_result = .ok u →
        env.downloaded = .ok data → hash data ≠ m →
        (∀ d, env.existing = some d → hash d ≠ m) →
        ∃ msg, download_attachment_cloud hash env item = .error (.validation msg))
    ∧ (∀ env : AttachmentEnv, ∀ u data, env.url_result = .ok u →
        env.downloaded = .ok data → hash data = m →
        (∀ d, env.existing = some d → hash d ≠ m) →
        download_attachment_cloud hash env item
          = .ok (some ("attachments/" ++ item.key, item.filename, data))) := by
  have hcond : ¬ (item.link_mode ≠ "linked_file" ∧ item.link_mode ≠ "imported_file") := by
    rcases hlink with h | h <;> simp [h]
  refine ⟨?_, ?_, ?_, ?_⟩
  · intro env data hex hhash
    unfold download_attachment_cloud
    rw [if_neg hcond]
    simp [hmd5, hex, hhash]
  · intro env msg hurl
    unfold download_attachment_cloud
    rw [if_neg hcond]
    rcases hex : env.existing with _ | d
    · simp [hmd5, hex, hurl]
    · by_cases hh : hash d = m <;> simp [hmd5, hex, hurl, hh]
  · intro env u data hurl hdata hne hskip
    unfold download_attachment_cloud
    rw [if_neg hcond]
    rcases hex : env.existing with _ | d
    · refine ⟨"MD5 mismatch for " ++ item.key ++ ": expected " ++ m ++ ", got "
        ++ hash data, ?_⟩
      simp [hmd5, hex, hurl, hdata, hne]
    · refine ⟨"MD5 mismatch for " ++ item.key ++ ": expected " ++ m ++ ", got "
        ++ hash data, ?_⟩
      simp [hmd5, hex, hurl, hdata, hne, hskip d hex]
  · intro env u data hurl hdata hhash hskip
    unfold download_attachment_cloud
    rw [if_neg hcond]
    rcases hex : env.existing with _ | d
    · simp [hmd5, hex, hurl, hdata, hhash]
    · simp [hmd5, hex, hurl, hdata, hhash, hskip d hex]

/-- Witness for C6: an object-store copy whose hash matches the cloud md5
short-circuits the download to a successful no-op. -/
theorem attachment_download_integrity_witness :
    download_attachment_cloud (fun _ => "h")
        { existing := some [7], url_result := .ok "u", downloaded := .ok [1] }
        { key := "K3", link_mode := "imported_file", filename := "p.pdf",
          cloud_md5 := some "h" }
      = .ok Option.none :=
  (attachment_download_integrity (fun _ => "h")
      { key := "K3", link_mode := "imported_file", filename := "p.pdf",
        cloud_md5 := some "h" } "h" (Or.inr rfl) rfl).1
    { existing := some [7], url_result := .ok "u", downloaded := .ok [1] } [7] rfl rfl

end Postero
